import Mathlib

/-!
Verification of the ECommerce catalog schema (`ECommerce/inventory/models.py`).

The repository is a declarative schema: each Django model declares fields,
uniqueness constraints, protected foreign keys (`on_delete=models.PROTECT`),
decimal bounds (`max_digits=5, decimal_places=2`), boolean defaults and
auto-maintained timestamps (`auto_now_add` / `auto_now`).  We embed each
model as a row structure, the database as a `Store` of keyed row lists, and
each write operation (insert / update / delete) as a function
`Store → Except DBError Store` that enforces exactly the checks the schema
declares, in the order the framework applies them (field validation, then
uniqueness, then foreign-key existence).  An `.error` result models the
aborted transaction: the store the caller holds is unchanged.
-/

namespace ECommerce

/-- Error taxonomy of the schema layer (spec §7): duplicate unique value,
delete of a still-referenced row, price out of declared bounds/precision,
foreign key to a missing row, and a missing value for a non-null field
that declares no default. -/
inductive DBError where
  | UniquenessViolation
  | ReferentialIntegrityError
  | RangeError
  | ReferenceNotFoundError
  | NotNullViolation
deriving DecidableEq

/-- Decides whether an `Except` result is a success. -/
def exceptOk {ε α : Type} : Except ε α → Bool
  | .ok _ => true
  | .error _ => false

/-! ## Decimal values and `DecimalField(max_digits=5, decimal_places=2)`

A decimal literal is kept exactly as written: `units` is the signed digit
string read as an integer (trailing zeros kept, as in Python's `Decimal`)
and `scale` the number of fractional digits, so `-1.00` is `⟨-100, 2⟩` and
`999.99` is `⟨99999, 2⟩`. -/

structure DecimalInput where
  units : Int
  scale : Nat
deriving DecidableEq

/-- Fuel-driven digit count of a natural number (`numDigits 0 = 1`). -/
def numDigitsAux : Nat → Nat → Nat
  | 0, _ => 1
  | fuel + 1, n => if n < 10 then 1 else numDigitsAux fuel (n / 10) + 1

/-- Number of decimal digits of `n`, counting `0` as one digit. -/
def numDigits (n : Nat) : Nat := numDigitsAux n n

/-- The validation Django's `DecimalValidator` performs for a field declared
with `max_digits` and `decimal_places`: the digit count (sign excluded) is
at most `max_digits`, the fractional digits at most `decimal_places`, and
the whole digits at most `max_digits - decimal_places`.  No minimum-value
check is declared anywhere on the price fields. -/
def decimalValid (maxDigits decimalPlaces : Nat) (d : DecimalInput) : Bool :=
  let decimals := d.scale
  let digits := max (numDigits d.units.natAbs) decimals
  digits ≤ maxDigits && decimals ≤ decimalPlaces &&
    digits - decimals ≤ maxDigits - decimalPlaces

/-- The check declared on `retail_price`, `store_price` and `sale_price`:
`max_digits=5, decimal_places=2` ("maximum price 999.99"). -/
def priceValid (d : DecimalInput) : Bool := decimalValid 5 2 d

/-! ## Boolean field declarations

Each `models.BooleanField(...)` of the schema, with its declared default
(or its absence) and its declared texts. -/

structure BooleanField where
  default : Option Bool
  verbose_name : Option String
  help_text : Option String
deriving DecidableEq

/-- `Category.is_active = models.BooleanField(default=True)`. -/
def categoryIsActiveField : BooleanField := ⟨some true, none, none⟩

/-- `Product.is_active = models.BooleanField(default=False, verbose_name='product visibility')`. -/
def productIsActiveField : BooleanField := ⟨some false, some "product visibility", none⟩

/-- `ProductInventory.is_active = models.BooleanField(default=False, verbose_name='product visibility')`. -/
def inventoryIsActiveField : BooleanField := ⟨some false, some "product visibility", none⟩

/-- `ProductInventory.is_default = models.BooleanField(default=False, verbose_name='default selection')`. -/
def inventoryIsDefaultField : BooleanField := ⟨some false, some "default selection", none⟩

/-- `Media.is_feature = models.BooleanField(verbose_name=..., help_text=...)`:
no `default=` argument is declared, although the help text says
"format: default=false". -/
def mediaIsFeatureField : BooleanField :=
  ⟨none, some "product default image", some "format: default=false, true=default image"⟩

/-- Creating a row resolves each boolean column from the explicitly supplied
value if any, else from the field's declared default; a non-null column with
no default and no supplied value aborts the insert (`NotNullViolation`). -/
def resolveBool (f : BooleanField) (supplied : Option Bool) : Except DBError Bool :=
  match supplied with
  | some b => .ok b
  | none =>
    match f.default with
    | some d => .ok d
    | none => .error .NotNullViolation

/-! ## Category (MPTT tree)

`Category`: `name`, `slug`, `is_active` (default `True`),
`parent = TreeForeignKey('self', on_delete=models.PROTECT, null=True)`,
with `MPTTMeta.order_insertion_by = ['name']`: the tree library places every
new node among its siblings so that siblings stay ordered by `name`. -/

structure CategoryRow where
  name : String
  slug : String
  is_active : Bool
  parent : Option Nat
deriving DecidableEq

/-- The category table, kept in tree order (a row's position among the rows
sharing its `parent` is its sibling position). -/
abbrev CatStore := List (Nat × CategoryRow)

/-- `order_insertion_by=['name']`: the new row goes immediately before the
first sibling (same `parent`) whose `name` is strictly greater, hence after
all siblings with smaller-or-equal names; rows of other parents are passed
over unchanged. -/
def catInsertPos (p : Option Nat) (n : String) (x : Nat × CategoryRow) :
    CatStore → CatStore
  | [] => [x]
  | y :: ys =>
    if y.2.parent = p ∧ n < y.2.name then x :: y :: ys
    else y :: catInsertPos p n x ys

/-- Insert a category: the parent, when given, must exist (foreign key);
the row is then placed among its siblings by `name`. -/
def insertCategory (s : CatStore) (id : Nat) (r : CategoryRow) :
    Except DBError CatStore :=
  match r.parent with
  | some p =>
    if (s.lookup p).isSome then .ok (catInsertPos r.parent r.name (id, r) s)
    else .error .ReferenceNotFoundError
  | none => .ok (catInsertPos none r.name (id, r) s)

/-- Delete a category: `parent` is `on_delete=models.PROTECT`, so a node
with at least one child is protected and the delete aborts. -/
def deleteCategory (s : CatStore) (id : Nat) : Except DBError CatStore :=
  if ∃ y ∈ s, y.2.parent = some id then .error .ReferentialIntegrityError
  else if (s.lookup id).isSome then .ok (s.filter (fun y => y.1 ≠ id))
  else .error .ReferenceNotFoundError

/-- The names of the children of `p`, in table (sibling) order. -/
def childrenNames (s : CatStore) (p : Option Nat) : List String :=
  (s.filter (fun y => y.2.parent = p)).map (fun y => y.2.name)

/-- Run a sequence of category insertions; a failed insert leaves the
store unchanged. -/
def runCatInserts : List (Nat × CategoryRow) → CatStore → CatStore
  | [], s => s
  | (id, r) :: rest, s =>
    runCatInserts rest
      (match insertCategory s id r with
       | .ok s' => s'
       | .error _ => s)

/-! ## Rows of the remaining models

Timestamps are abstract clock readings (`Nat`); `auto_now_add` columns are
written once at insertion, `auto_now` columns at every save.  The `weight`
`FloatField` carries a numeric value whose arithmetic never matters here,
embedded as `Int`. -/

structure ProductRow where
  web_id : String
  slug : String
  name : String
  description : String
  is_active : Bool
  created_at : Nat
  updated_at : Nat
deriving DecidableEq

structure BrandRow where
  name : String
deriving DecidableEq

structure ProductAttributeRow where
  name : String
  description : Option String
deriving DecidableEq

structure ProductTypeRow where
  name : String
deriving DecidableEq

structure ProductAttributeValueRow where
  product_attribute : Nat
  attribute_value : String
deriving DecidableEq

structure ProductInventoryRow where
  sku : String
  upc : String
  product_type : Nat
  product : Nat
  brand : Nat
  is_active : Bool
  is_default : Bool
  retail_price : DecimalInput
  store_price : DecimalInput
  sale_price : DecimalInput
  weight : Int
  created_at : Nat
  updated_at : Nat
deriving DecidableEq

structure MediaRow where
  product_inventory : Nat
  image : String
  alt_text : String
  is_feature : Bool
  created_at : Nat
  updated_at : Nat
deriving DecidableEq

structure StockRow where
  product_inventory : Nat
  last_checked : Option Nat
  units : Int
  units_sold : Int
deriving DecidableEq

structure ProductAttributeLinkRow where
  attribute_values : Nat
  product_inventory : Nat
deriving DecidableEq

structure ProductTypeAttributeRow where
  product_attribute : Nat
  product_type : Nat
deriving DecidableEq

/-- The relational store: one keyed row list per model of the schema
(the category tree is kept separately as `CatStore`). -/
structure Store where
  products : List (Nat × ProductRow)
  brands : List (Nat × BrandRow)
  productTypes : List (Nat × ProductTypeRow)
  productAttributes : List (Nat × ProductAttributeRow)
  attributeValues : List (Nat × ProductAttributeValueRow)
  inventories : List (Nat × ProductInventoryRow)
  stocks : List (Nat × StockRow)
  medias : List (Nat × MediaRow)
  attributeLinks : List (Nat × ProductAttributeLinkRow)
  typeAttributeLinks : List (Nat × ProductTypeAttributeRow)
deriving DecidableEq

def Store.empty : Store := ⟨[], [], [], [], [], [], [], [], [], []⟩

/-- Replace the row stored under `id`, leaving every key in place. -/
def updateById {α : Type} (l : List (Nat × α)) (id : Nat) (g : α → α) :
    List (Nat × α) :=
  l.map (fun y => if y.1 = id then (y.1, g y.2) else y)

/-! ## Insert operations

Each insert enforces the checks the schema declares: field validation
first, then the declared uniqueness constraints, then foreign-key
existence, then column resolution (defaults). -/

/-- `Product`: `web_id` is declared `unique=True`; `created_at`
(`auto_now_add`) and `updated_at` (`auto_now`) are both set to the
insertion time `t`. -/
def insertProduct (s : Store) (id : Nat)
    (web_id slug name description : String) (is_active : Option Bool)
    (t : Nat) : Except DBError Store :=
  if ∃ y ∈ s.products, y.2.web_id = web_id then .error .UniquenessViolation
  else
    match resolveBool productIsActiveField is_active with
    | .error e => .error e
    | .ok act =>
      .ok { s with products :=
              (id, ⟨web_id, slug, name, description, act, t, t⟩) :: s.products }

/-- `Brand.name` is `unique=True`. -/
def insertBrand (s : Store) (id : Nat) (name : String) :
    Except DBError Store :=
  if ∃ y ∈ s.brands, y.2.name = name then .error .UniquenessViolation
  else .ok { s with brands := (id, ⟨name⟩) :: s.brands }

/-- `ProductType.name` is `unique=True`. -/
def insertProductType (s : Store) (id : Nat) (name : String) :
    Except DBError Store :=
  if ∃ y ∈ s.productTypes, y.2.name = name then .error .UniquenessViolation
  else .ok { s with productTypes := (id, ⟨name⟩) :: s.productTypes }

/-- `ProductAttribute.name` is `unique=True`. -/
def insertProductAttribute (s : Store) (id : Nat) (name : String)
    (description : Option String) : Except DBError Store :=
  if ∃ y ∈ s.productAttributes, y.2.name = name then
    .error .UniquenessViolation
  else .ok { s with productAttributes :=
               (id, ⟨name, description⟩) :: s.productAttributes }

/-- `ProductAttributeValue.product_attribute` is a foreign key into
`ProductAttribute`. -/
def insertAttributeValue (s : Store) (id : Nat) (product_attribute : Nat)
    (attribute_value : String) : Except DBError Store :=
  if (s.productAttributes.lookup product_attribute).isSome then
    .ok { s with attributeValues :=
            (id, ⟨product_attribute, attribute_value⟩) :: s.attributeValues }
  else .error .ReferenceNotFoundError

/-- `ProductInventory`: the three prices are validated first
(`max_digits=5, decimal_places=2`); `sku` and `upc` are each
`unique=True`; `product_type`, `product` and `brand` are foreign keys;
`is_active` and `is_default` resolve from their declared defaults;
both timestamps are set to the insertion time `t`. -/
def insertInventory (s : Store) (id : Nat) (sku upc : String)
    (product_type product brand : Nat) (is_active is_default : Option Bool)
    (retail_price store_price sale_price : DecimalInput) (weight : Int)
    (t : Nat) : Except DBError Store :=
  if ¬ (priceValid retail_price && priceValid store_price &&
        priceValid sale_price) = true then .error .RangeError
  else if ∃ y ∈ s.inventories, y.2.sku = sku ∨ y.2.upc = upc then
    .error .UniquenessViolation
  else if ¬ ((s.productTypes.lookup product_type).isSome ∧
             (s.products.lookup product).isSome ∧
             (s.brands.lookup brand).isSome) then
    .error .ReferenceNotFoundError
  else
    match resolveBool inventoryIsActiveField is_active,
          resolveBool inventoryIsDefaultField is_default with
    | .ok a, .ok d =>
      .ok { s with inventories :=
              (id, ⟨sku, upc, product_type, product, brand, a, d,
                    retail_price, store_price, sale_price, weight, t, t⟩)
                :: s.inventories }
    | .error e, _ => .error e
    | _, .error e => .error e

/-- `Stock.product_inventory` is a `OneToOneField` (foreign key plus a
uniqueness constraint on the referencing column); `units` and
`units_sold` default to `0` when not supplied. -/
def insertStock (s : Store) (id : Nat) (product_inventory : Nat)
    (last_checked : Option Nat) (units units_sold : Option Int) :
    Except DBError Store :=
  if ∃ y ∈ s.stocks, y.2.product_inventory = product_inventory then
    .error .UniquenessViolation
  else if (s.inventories.lookup product_inventory).isSome then
    .ok { s with stocks :=
            (id, ⟨product_inventory, last_checked, units.getD 0,
                  units_sold.getD 0⟩) :: s.stocks }
  else .error .ReferenceNotFoundError

/-- `Media`: `product_inventory` is a foreign key; `image` defaults to
`"images/default.png"`; `is_feature` declares no default, so an insert
that does not supply it aborts; both timestamps are set to `t`. -/
def insertMedia (s : Store) (id : Nat) (product_inventory : Nat)
    (image : Option String) (alt_text : String) (is_feature : Option Bool)
    (t : Nat) : Except DBError Store :=
  match resolveBool mediaIsFeatureField is_feature with
  | .error e => .error e
  | .ok feat =>
    if (s.inventories.lookup product_inventory).isSome then
      .ok { s with medias :=
              (id, ⟨product_inventory, image.getD "images/default.png",
                    alt_text, feat, t, t⟩) :: s.medias }
    else .error .ReferenceNotFoundError

/-- `ProductAttributeLinkTable`: `unique_together =
(('attribute_values', 'product_inventory'),)`, and both columns are
foreign keys. -/
def insertAttributeLink (s : Store) (id : Nat)
    (attribute_values product_inventory : Nat) : Except DBError Store :=
  if ∃ y ∈ s.attributeLinks, y.2.attribute_values = attribute_values ∧
      y.2.product_inventory = product_inventory then
    .error .UniquenessViolation
  else if (s.attributeValues.lookup attribute_values).isSome ∧
          (s.inventories.lookup product_inventory).isSome then
    .ok { s with attributeLinks :=
            (id, ⟨attribute_values, product_inventory⟩) :: s.attributeLinks }
  else .error .ReferenceNotFoundError

/-- `ProductTypeAttribute`: `unique_together = ('product_attribute',
'product_type')`, and both columns are foreign keys. -/
def insertTypeAttributeLink (s : Store) (id : Nat)
    (product_attribute product_type : Nat) : Except DBError Store :=
  if ∃ y ∈ s.typeAttributeLinks, y.2.product_attribute = product_attribute ∧
      y.2.product_type = product_type then
    .error .UniquenessViolation
  else if (s.productAttributes.lookup product_attribute).isSome ∧
          (s.productTypes.lookup product_type).isSome then
    .ok { s with typeAttributeLinks :=
            (id, ⟨product_attribute, product_type⟩) :: s.typeAttributeLinks }
  else .error .ReferenceNotFoundError

/-! ## Update operations

A save re-runs the declared checks; `created_at` is `editable=False` with
`auto_now_add`, so it is never rewritten, while `updated_at` is `auto_now`
and takes the save time. -/

structure ProductUpdate where
  web_id : String
  slug : String
  name : String
  description : String
  is_active : Bool
deriving DecidableEq

def updateProduct (s : Store) (id : Nat) (u : ProductUpdate) (t : Nat) :
    Except DBError Store :=
  if (s.products.lookup id).isSome then
    if ∃ y ∈ s.products, y.1 ≠ id ∧ y.2.web_id = u.web_id then
      .error .UniquenessViolation
    else
      .ok { s with products := updateById s.products id (fun r =>
              ⟨u.web_id, u.slug, u.name, u.description, u.is_active,
               r.created_at, t⟩) }
  else .error .ReferenceNotFoundError

structure InventoryUpdate where
  sku : String
  upc : String
  product_type : Nat
  product : Nat
  brand : Nat
  is_active : Bool
  is_default : Bool
  retail_price : DecimalInput
  store_price : DecimalInput
  sale_price : DecimalInput
  weight : Int
deriving DecidableEq

def updateInventory (s : Store) (id : Nat) (u : InventoryUpdate) (t : Nat) :
    Except DBError Store :=
  if (s.inventories.lookup id).isSome then
    if ¬ (priceValid u.retail_price && priceValid u.store_price &&
          priceValid u.sale_price) = true then .error .RangeError
    else if ∃ y ∈ s.inventories, y.1 ≠ id ∧
        (y.2.sku = u.sku ∨ y.2.upc = u.upc) then
      .error .UniquenessViolation
    else if ¬ ((s.productTypes.lookup u.product_type).isSome ∧
               (s.products.lookup u.product).isSome ∧
               (s.brands.lookup u.brand).isSome) then
      .error .ReferenceNotFoundError
    else
      .ok { s with inventories := updateById s.inventories id (fun r =>
              ⟨u.sku, u.upc, u.product_type, u.product, u.brand,
               u.is_active, u.is_default, u.retail_price, u.store_price,
               u.sale_price, u.weight, r.created_at, t⟩) }
  else .error .ReferenceNotFoundError

/-! ## Delete operations

Every foreign key of the schema is declared `on_delete=models.PROTECT`:
deleting a row that another row still references aborts with
`ReferentialIntegrityError` and nothing cascades. -/

def deleteProduct (s : Store) (id : Nat) : Except DBError Store :=
  if ∃ y ∈ s.inventories, y.2.product = id then
    .error .ReferentialIntegrityError
  else if (s.products.lookup id).isSome then
    .ok { s with products := s.products.filter (fun y => y.1 ≠ id) }
  else .error .ReferenceNotFoundError

def deleteBrand (s : Store) (id : Nat) : Except DBError Store :=
  if ∃ y ∈ s.inventories, y.2.brand = id then
    .error .ReferentialIntegrityError
  else if (s.brands.lookup id).isSome then
    .ok { s with brands := s.brands.filter (fun y => y.1 ≠ id) }
  else .error .ReferenceNotFoundError

def deleteProductType (s : Store) (id : Nat) : Except DBError Store :=
  if (∃ y ∈ s.inventories, y.2.product_type = id) ∨
     (∃ y ∈ s.typeAttributeLinks, y.2.product_type = id) then
    .error .ReferentialIntegrityError
  else if (s.productTypes.lookup id).isSome then
    .ok { s with productTypes := s.productTypes.filter (fun y => y.1 ≠ id) }
  else .error .ReferenceNotFoundError

def deleteProductAttribute (s : Store) (id : Nat) : Except DBError Store :=
  if (∃ y ∈ s.attributeValues, y.2.product_attribute = id) ∨
     (∃ y ∈ s.typeAttributeLinks, y.2.product_attribute = id) then
    .error .ReferentialIntegrityError
  else if (s.productAttributes.lookup id).isSome then
    .ok { s with productAttributes :=
            s.productAttributes.filter (fun y => y.1 ≠ id) }
  else .error .ReferenceNotFoundError

def deleteAttributeValue (s : Store) (id : Nat) : Except DBError Store :=
  if ∃ y ∈ s.attributeLinks, y.2.attribute_values = id then
    .error .ReferentialIntegrityError
  else if (s.attributeValues.lookup id).isSome then
    .ok { s with attributeValues :=
            s.attributeValues.filter (fun y => y.1 ≠ id) }
  else .error .ReferenceNotFoundError

def deleteInventory (s : Store) (id : Nat) : Except DBError Store :=
  if (∃ y ∈ s.stocks, y.2.product_inventory = id) ∨
     (∃ y ∈ s.medias, y.2.product_inventory = id) ∨
     (∃ y ∈ s.attributeLinks, y.2.product_inventory = id) then
    .error .ReferentialIntegrityError
  else if (s.inventories.lookup id).isSome then
    .ok { s with inventories := s.inventories.filter (fun y => y.1 ≠ id) }
  else .error .ReferenceNotFoundError

/-! ## Operation language and reachable states -/

inductive Op where
  | insertProduct (id : Nat) (web_id slug name description : String)
      (is_active : Option Bool) (t : Nat)
  | insertBrand (id : Nat) (name : String)
  | insertProductType (id : Nat) (name : String)
  | insertProductAttribute (id : Nat) (name : String)
      (description : Option String)
  | insertAttributeValue (id product_attribute : Nat)
      (attribute_value : String)
  | insertInventory (id : Nat) (sku upc : String)
      (product_type product brand : Nat) (is_active is_default : Option Bool)
      (retail_price store_price sale_price : DecimalInput) (weight : Int)
      (t : Nat)
  | insertStock (id product_inventory : Nat) (last_checked : Option Nat)
      (units units_sold : Option Int)
  | insertMedia (id product_inventory : Nat) (image : Option String)
      (alt_text : String) (is_feature : Option Bool) (t : Nat)
  | insertAttributeLink (id attribute_values product_inventory : Nat)
  | insertTypeAttributeLink (id product_attribute product_type : Nat)
  | updateProduct (id : Nat) (u : ProductUpdate) (t : Nat)
  | updateInventory (id : Nat) (u : InventoryUpdate) (t : Nat)
  | deleteProduct (id : Nat)
  | deleteBrand (id : Nat)
  | deleteProductType (id : Nat)
  | deleteProductAttribute (id : Nat)
  | deleteAttributeValue (id : Nat)
  | deleteInventory (id : Nat)
deriving DecidableEq

def applyOp (s : Store) : Op → Except DBError Store
  | .insertProduct id w sl n d a t => insertProduct s id w sl n d a t
  | .insertBrand id n => insertBrand s id n
  | .insertProductType id n => insertProductType s id n
  | .insertProductAttribute id n d => insertProductAttribute s id n d
  | .insertAttributeValue id pa v => insertAttributeValue s id pa v
  | .insertInventory id sk up pt p b a df r st sa w t =>
    insertInventory s id sk up pt p b a df r st sa w t
  | .insertStock id pi lc u us => insertStock s id pi lc u us
  | .insertMedia id pi im al f t => insertMedia s id pi im al f t
  | .insertAttributeLink id av pi => insertAttributeLink s id av pi
  | .insertTypeAttributeLink id pa pt => insertTypeAttributeLink s id pa pt
  | .updateProduct id u t => updateProduct s id u t
  | .updateInventory id u t => updateInventory s id u t
  | .deleteProduct id => deleteProduct s id
  | .deleteBrand id => deleteBrand s id
  | .deleteProductType id => deleteProductType s id
  | .deleteProductAttribute id => deleteProductAttribute s id
  | .deleteAttributeValue id => deleteAttributeValue s id
  | .deleteInventory id => deleteInventory s id

/-- States reachable from the empty store through successful operations. -/
inductive Reachable : Store → Prop
  | empty : Reachable Store.empty
  | step {s : Store} {o : Op} {s' : Store} :
      Reachable s → applyOp s o = .ok s' → Reachable s'

/-- Run a sequence of operations; a failed operation leaves the store
unchanged (the aborted transaction). -/
def runOps (s : Store) : List Op → Store
  | [] => s
  | o :: os =>
    runOps
      (match applyOp s o with
       | .ok s' => s'
       | .error _ => s) os

/-- No foreign key in the store dangles: every reference of every
stored row resolves to a stored row. -/
def NoDangling (s : Store) : Prop :=
  (∀ y ∈ s.attributeValues,
     (s.productAttributes.lookup y.2.product_attribute).isSome = true) ∧
  (∀ y ∈ s.inventories,
     (s.productTypes.lookup y.2.product_type).isSome = true ∧
     (s.products.lookup y.2.product).isSome = true ∧
     (s.brands.lookup y.2.brand).isSome = true) ∧
  (∀ y ∈ s.stocks,
     (s.inventories.lookup y.2.product_inventory).isSome = true) ∧
  (∀ y ∈ s.medias,
     (s.inventories.lookup y.2.product_inventory).isSome = true) ∧
  (∀ y ∈ s.attributeLinks,
     (s.attributeValues.lookup y.2.attribute_values).isSome = true ∧
     (s.inventories.lookup y.2.product_inventory).isSome = true) ∧
  (∀ y ∈ s.typeAttributeLinks,
     (s.productAttributes.lookup y.2.product_attribute).isSome = true ∧
     (s.productTypes.lookup y.2.product_type).isSome = true)

/-- Insertion of a name into a name list just before the first strictly
greater entry: the one-parent view of `catInsertPos`. -/
def orderedInsertLt (n : String) : List String → List String
  | [] => [n]
  | m :: ms => if n < m then n :: m :: ms else m :: orderedInsertLt n ms

/-- The clock reading an operation stamps rows with, when it has one. -/
def opTime : Op → Option Nat
  | .insertProduct _ _ _ _ _ _ t => some t
  | .insertBrand _ _ => none
  | .insertProductType _ _ => none
  | .insertProductAttribute _ _ _ => none
  | .insertAttributeValue _ _ _ => none
  | .insertInventory _ _ _ _ _ _ _ _ _ _ _ _ t => some t
  | .insertStock _ _ _ _ _ => none
  | .insertMedia _ _ _ _ _ t => some t
  | .insertAttributeLink _ _ _ => none
  | .insertTypeAttributeLink _ _ _ => none
  | .updateProduct _ _ t => some t
  | .updateInventory _ _ t => some t
  | .deleteProduct _ => none
  | .deleteBrand _ => none
  | .deleteProductType _ => none
  | .deleteProductAttribute _ => none
  | .deleteAttributeValue _ => none
  | .deleteInventory _ => none

/-- The wall clock never runs backwards across a sequence of operations
issued after reading `c`. -/
def timesMono : Nat → List Op → Prop
  | _, [] => True
  | c, o :: os =>
    match opTime o with
    | none => timesMono c os
    | some t => c ≤ t ∧ timesMono t os

/-- Every timestamped row is internally consistent and no stamp exceeds
the clock reading `c`. -/
def StampedLE (s : Store) (c : Nat) : Prop :=
  (∀ y ∈ s.products,
     y.2.created_at ≤ y.2.updated_at ∧ y.2.updated_at ≤ c) ∧
  (∀ y ∈ s.inventories,
     y.2.created_at ≤ y.2.updated_at ∧ y.2.updated_at ≤ c)

/-- Creation never postdates the last update, on every stored row. -/
def TimesOk (s : Store) : Prop :=
  (∀ y ∈ s.products, y.2.created_at ≤ y.2.updated_at) ∧
  (∀ y ∈ s.inventories, y.2.created_at ≤ y.2.updated_at)

/-! ## Concrete demonstration stores -/

/-- The operations populating the demonstration store: a product type, a
product, a brand, attributes with values, two variants, a stock row, a
media row and one row in each link table. -/
def invStoreOps : List Op :=
    [.insertProductType 1 "laptops",
     .insertProduct 2 "w1" "laptop" "Laptop" "A laptop" none 0,
     .insertBrand 3 "acme",
     .insertProductAttribute 6 "color" none,
     .insertProductAttribute 13 "size" none,
     .insertAttributeValue 7 6 "red",
     .insertAttributeValue 8 6 "blue",
     .insertInventory 4 "SKU-1" "123456789012" 1 2 3 none none
       ⟨49999, 2⟩ ⟨39999, 2⟩ ⟨29999, 2⟩ 2 1,
     .insertInventory 9 "SKU-2" "123456789013" 1 2 3 none none
       ⟨49999, 2⟩ ⟨39999, 2⟩ ⟨29999, 2⟩ 2 1,
     .insertStock 5 4 none none none,
     .insertMedia 10 4 none "front view" (some true) 1,
     .insertAttributeLink 11 7 4,
     .insertTypeAttributeLink 12 6 1]

/-- The demonstration store, populated from the empty store. -/
def invStore : Store := runOps Store.empty invStoreOps

/-- The demonstration store after one more variant insert with explicit
flags at time 5. -/
def invStore2 : Store :=
  runOps invStore
    [.insertInventory 24 "SKU-6" "123456789017" 1 2 3 (some true)
      (some false) ⟨100, 2⟩ ⟨100, 2⟩ ⟨100, 2⟩ 1 5]

/-- A full-field rewrite of variant 4, saved at time 9. -/
def demoUpdate : InventoryUpdate :=
  ⟨"SKU-1", "123456789012", 1, 2, 3, true, true,
   ⟨20000, 2⟩, ⟨20000, 2⟩, ⟨20000, 2⟩, 3⟩

/-- The demonstration store after updating variant 4 at time 9. -/
def invStore3 : Store := runOps invStore [.updateInventory 4 demoUpdate 9]

/-- A store holding one product created without supplying `is_active`. -/
def prodStore : Store :=
  runOps Store.empty [.insertProduct 1 "w9" "prod" "Prod" "A product" none 7]

def electronicsRow : CategoryRow := ⟨"Electronics", "electronics", true, none⟩

def laptopsRow : CategoryRow := ⟨"Laptops", "laptops", true, some 1⟩

/-- The spec §8 scenario tree: "Electronics" with child "Laptops". -/
def catDemo : CatStore := runCatInserts [(1, electronicsRow), (2, laptopsRow)] []

/-! ## Lookup lemmas -/

theorem lookup_cons_isSome {α : Type} (a : Nat × α) (l : List (Nat × α))
    (k : Nat) (h : (l.lookup k).isSome = true) :
    ((a :: l).lookup k).isSome = true := by
  obtain ⟨k', v⟩ := a
  by_cases hk : k = k'
  · subst hk; simp [List.lookup]
  · have hb : (k == k') = false := beq_eq_false_iff_ne.mpr hk
    simp [List.lookup, hb, h]

theorem lookup_self_cons {α : Type} (k : Nat) (v : α) (l : List (Nat × α)) :
    ((k, v) :: l).lookup k = some v := by
  simp [List.lookup]

theorem lookup_cons_ne {α : Type} (k' : Nat) (v : α) (l : List (Nat × α))
    (k : Nat) (h : k ≠ k') : ((k', v) :: l).lookup k = l.lookup k := by
  have hb : (k == k') = false := beq_eq_false_iff_ne.mpr h
  simp [List.lookup, hb]

theorem lookup_filter_ne {α : Type} (l : List (Nat × α)) (id k : Nat)
    (h : k ≠ id) :
    (l.filter (fun y => y.1 ≠ id)).lookup k = l.lookup k := by
  induction l with
  | nil => rfl
  | cons a l ih =>
    obtain ⟨k', v⟩ := a
    by_cases h1 : k' = id
    · have hkk : k ≠ k' := by rw [h1]; exact h
      rw [List.filter_cons, if_neg (by simp [h1]), ih, lookup_cons_ne _ _ _ _ hkk]
    · rw [List.filter_cons, if_pos (by simp [h1])]
      by_cases hk : k = k'
      · subst hk; simp [List.lookup]
      · rw [lookup_cons_ne _ _ _ _ hk, lookup_cons_ne _ _ _ _ hk, ih]

theorem lookup_updateById_ne {α : Type} (l : List (Nat × α)) (id : Nat)
    (g : α → α) (k : Nat) (h : k ≠ id) :
    (updateById l id g).lookup k = l.lookup k := by
  induction l with
  | nil => rfl
  | cons a l ih =>
    obtain ⟨k', v⟩ := a
    simp only [updateById, List.map_cons] at ih ⊢
    by_cases h1 : k' = id
    · have hkk : k ≠ k' := by rw [h1]; exact h
      rw [if_pos h1]
      rw [lookup_cons_ne _ _ _ _ hkk, lookup_cons_ne _ _ _ _ hkk, ih]
    · rw [if_neg h1]
      by_cases hk : k = k'
      · subst hk; simp [List.lookup]
      · rw [lookup_cons_ne _ _ _ _ hk, lookup_cons_ne _ _ _ _ hk, ih]

theorem lookup_updateById_self {α : Type} (l : List (Nat × α)) (id : Nat)
    (g : α → α) :
    (updateById l id g).lookup id = (l.lookup id).map g := by
  induction l with
  | nil => rfl
  | cons a l ih =>
    obtain ⟨k', v⟩ := a
    simp only [updateById, List.map_cons] at ih ⊢
    by_cases h1 : k' = id
    · subst h1; rw [if_pos rfl]
      simp [List.lookup]
    · have hk : id ≠ k' := fun hc => h1 hc.symm
      rw [if_neg h1, lookup_cons_ne _ _ _ _ hk, lookup_cons_ne _ _ _ _ hk, ih]

theorem lookup_updateById_isSome {α : Type} (l : List (Nat × α)) (id : Nat)
    (g : α → α) (k : Nat) :
    ((updateById l id g).lookup k).isSome = (l.lookup k).isSome := by
  by_cases h : k = id
  · rw [h, lookup_updateById_self]
    cases hx : List.lookup id l <;> simp [hx]
  · rw [lookup_updateById_ne l id g k h]

/-! ## Preservation of referential integrity -/

theorem noDangling_empty : NoDangling Store.empty := by
  refine ⟨?_, ?_, ?_, ?_, ?_, ?_⟩ <;> intro y hy <;> simp [Store.empty] at hy

theorem noDangling_step {s : Store} {o : Op} {s' : Store}
    (hnd : NoDangling s) (h : applyOp s o = .ok s') : NoDangling s' := by
  obtain ⟨h1, h2, h3, h4, h5, h6⟩ := hnd
  cases o with
  | insertProduct id w sl n d a t =>
    rw [applyOp, insertProduct] at h
    split at h
    · exact absurd h (by simp)
    · split at h
      · exact absurd h (by simp)
      · injection h with h; subst h
        refine ⟨h1, ?_, h3, h4, h5, h6⟩
        intro y hy
        obtain ⟨ha, hb, hc⟩ := h2 y hy
        exact ⟨ha, lookup_cons_isSome _ _ _ hb, hc⟩
  | insertBrand id n =>
    rw [applyOp, insertBrand] at h
    split at h
    · exact absurd h (by simp)
    · injection h with h; subst h
      refine ⟨h1, ?_, h3, h4, h5, h6⟩
      intro y hy
      obtain ⟨ha, hb, hc⟩ := h2 y hy
      exact ⟨ha, hb, lookup_cons_isSome _ _ _ hc⟩
  | insertProductType id n =>
    rw [applyOp, insertProductType] at h
    split at h
    · exact absurd h (by simp)
    · injection h with h; subst h
      refine ⟨h1, ?_, h3, h4, h5, ?_⟩
      · intro y hy
        obtain ⟨ha, hb, hc⟩ := h2 y hy
        exact ⟨lookup_cons_isSome _ _ _ ha, hb, hc⟩
      · intro y hy
        obtain ⟨ha, hb⟩ := h6 y hy
        exact ⟨ha, lookup_cons_isSome _ _ _ hb⟩
  | insertProductAttribute id n d =>
    rw [applyOp, insertProductAttribute] at h
    split at h
    · exact absurd h (by simp)
    · injection h with h; subst h
      refine ⟨?_, h2, h3, h4, h5, ?_⟩
      · intro y hy
        exact lookup_cons_isSome _ _ _ (h1 y hy)
      · intro y hy
        obtain ⟨ha, hb⟩ := h6 y hy
        exact ⟨lookup_cons_isSome _ _ _ ha, hb⟩
  | insertAttributeValue id pa v =>
    rw [applyOp, insertAttributeValue] at h
    split at h
    · next hc =>
      injection h with h; subst h
      refine ⟨?_, h2, h3, h4, ?_, h6⟩
      · intro y hy
        rcases List.mem_cons.mp hy with hy | hy
        · subst hy; exact hc
        · exact h1 y hy
      · intro y hy
        obtain ⟨ha, hb⟩ := h5 y hy
        exact ⟨lookup_cons_isSome _ _ _ ha, hb⟩
    · exact absurd h (by simp)
  | insertInventory id sk up pt p b a df r st sa w t =>
    rw [applyOp, insertInventory] at h
    split at h
    · exact absurd h (by simp)
    · split at h
      · exact absurd h (by simp)
      · split at h
        · exact absurd h (by simp)
        · next hfk =>
          rw [not_not] at hfk
          obtain ⟨hft, hfp, hfb⟩ := hfk
          split at h
          · injection h with h; subst h
            refine ⟨h1, ?_, ?_, ?_, ?_, h6⟩
            · intro y hy
              rcases List.mem_cons.mp hy with hy | hy
              · subst hy; exact ⟨hft, hfp, hfb⟩
              · exact h2 y hy
            · intro y hy
              exact lookup_cons_isSome _ _ _ (h3 y hy)
            · intro y hy
              exact lookup_cons_isSome _ _ _ (h4 y hy)
            · intro y hy
              obtain ⟨ha, hb⟩ := h5 y hy
              exact ⟨ha, lookup_cons_isSome _ _ _ hb⟩
          · exact absurd h (by simp)
          · exact absurd h (by simp)
  | insertStock id pi lc u us =>
    rw [applyOp, insertStock] at h
    split at h
    · exact absurd h (by simp)
    · split at h
      · next hc =>
        injection h with h; subst h
        refine ⟨h1, h2, ?_, h4, h5, h6⟩
        intro y hy
        rcases List.mem_cons.mp hy with hy | hy
        · subst hy; exact hc
        · exact h3 y hy
      · exact absurd h (by simp)
  | insertMedia id pi im al f t =>
    rw [applyOp, insertMedia] at h
    split at h
    · exact absurd h (by simp)
    · split at h
      · next hc =>
        injection h with h; subst h
        refine ⟨h1, h2, h3, ?_, h5, h6⟩
        intro y hy
        rcases List.mem_cons.mp hy with hy | hy
        · subst hy; exact hc
        · exact h4 y hy
      · exact absurd h (by simp)
  | insertAttributeLink id av pi =>
    rw [applyOp, insertAttributeLink] at h
    split at h
    · exact absurd h (by simp)
    · split at h
      · next hc =>
        obtain ⟨hca, hci⟩ := hc
        injection h with h; subst h
        refine ⟨h1, h2, h3, h4, ?_, h6⟩
        intro y hy
        rcases List.mem_cons.mp hy with hy | hy
        · subst hy; exact ⟨hca, hci⟩
        · exact h5 y hy
      · exact absurd h (by simp)
  | insertTypeAttributeLink id pa pt =>
    rw [applyOp, insertTypeAttributeLink] at h
    split at h
    · exact absurd h (by simp)
    · split at h
      · next hc =>
        obtain ⟨hca, hct⟩ := hc
        injection h with h; subst h
        refine ⟨h1, h2, h3, h4, h5, ?_⟩
        intro y hy
        rcases List.mem_cons.mp hy with hy | hy
        · subst hy; exact ⟨hca, hct⟩
        · exact h6 y hy
      · exact absurd h (by simp)
  | updateProduct id u t =>
    rw [applyOp, updateProduct] at h
    split at h
    · split at h
      · exact absurd h (by simp)
      · injection h with h; subst h
        refine ⟨h1, ?_, h3, h4, h5, h6⟩
        intro y hy
        obtain ⟨ha, hb, hc⟩ := h2 y hy
        exact ⟨ha, by rw [lookup_updateById_isSome]; exact hb, hc⟩
    · exact absurd h (by simp)
  | updateInventory id u t =>
    rw [applyOp, updateInventory] at h
    split at h
    · split at h
      · exact absurd h (by simp)
      · split at h
        · exact absurd h (by simp)
        · split at h
          · exact absurd h (by simp)
          · next hfk =>
            rw [not_not] at hfk
            obtain ⟨hft, hfp, hfb⟩ := hfk
            injection h with h; subst h
            refine ⟨h1, ?_, ?_, ?_, ?_, h6⟩
            · intro y hy
              rcases List.mem_map.mp hy with ⟨z, hz, hzy⟩
              by_cases hzid : z.1 = id
              · rw [if_pos hzid] at hzy
                subst hzy
                exact ⟨hft, hfp, hfb⟩
              · rw [if_neg hzid] at hzy
                subst hzy
                exact h2 z hz
            · intro y hy
              rw [lookup_updateById_isSome]
              exact h3 y hy
            · intro y hy
              rw [lookup_updateById_isSome]
              exact h4 y hy
            · intro y hy
              obtain ⟨ha, hb⟩ := h5 y hy
              exact ⟨ha, by rw [lookup_updateById_isSome]; exact hb⟩
    · exact absurd h (by simp)
  | deleteProduct id =>
    rw [applyOp, deleteProduct] at h
    split at h
    · exact absurd h (by simp)
    · next hg =>
      push_neg at hg
      split at h
      · injection h with h; subst h
        refine ⟨h1, ?_, h3, h4, h5, h6⟩
        intro y hy
        obtain ⟨ha, hb, hc⟩ := h2 y hy
        exact ⟨ha, by rw [lookup_filter_ne _ _ _ (hg y hy)]; exact hb, hc⟩
      · exact absurd h (by simp)
  | deleteBrand id =>
    rw [applyOp, deleteBrand] at h
    split at h
    · exact absurd h (by simp)
    · next hg =>
      push_neg at hg
      split at h
      · injection h with h; subst h
        refine ⟨h1, ?_, h3, h4, h5, h6⟩
        intro y hy
        obtain ⟨ha, hb, hc⟩ := h2 y hy
        exact ⟨ha, hb, by rw [lookup_filter_ne _ _ _ (hg y hy)]; exact hc⟩
      · exact absurd h (by simp)
  | deleteProductType id =>
    rw [applyOp, deleteProductType] at h
    split at h
    · exact absurd h (by simp)
    · next hg =>
      push_neg at hg
      obtain ⟨hgi, hgl⟩ := hg
      split at h
      · injection h with h; subst h
        refine ⟨h1, ?_, h3, h4, h5, ?_⟩
        · intro y hy
          obtain ⟨ha, hb, hc⟩ := h2 y hy
          exact ⟨by rw [lookup_filter_ne _ _ _ (hgi y hy)]; exact ha, hb, hc⟩
        · intro y hy
          obtain ⟨ha, hb⟩ := h6 y hy
          exact ⟨ha, by rw [lookup_filter_ne _ _ _ (hgl y hy)]; exact hb⟩
      · exact absurd h (by simp)
  | deleteProductAttribute id =>
    rw [applyOp, deleteProductAttribute] at h
    split at h
    · exact absurd h (by simp)
    · next hg =>
      push_neg at hg
      obtain ⟨hgv, hgl⟩ := hg
      split at h
      · injection h with h; subst h
        refine ⟨?_, h2, h3, h4, h5, ?_⟩
        · intro y hy
          rw [lookup_filter_ne _ _ _ (hgv y hy)]
          exact h1 y hy
        · intro y hy
          obtain ⟨ha, hb⟩ := h6 y hy
          exact ⟨by rw [lookup_filter_ne _ _ _ (hgl y hy)]; exact ha, hb⟩
      · exact absurd h (by simp)
  | deleteAttributeValue id =>
    rw [applyOp, deleteAttributeValue] at h
    split at h
    · exact absurd h (by simp)
    · next hg =>
      push_neg at hg
      split at h
      · injection h with h; subst h
        refine ⟨?_, h2, h3, h4, ?_, h6⟩
        · intro y hy
          exact h1 y (List.mem_of_mem_filter hy)
        · intro y hy
          obtain ⟨ha, hb⟩ := h5 y hy
          exact ⟨by rw [lookup_filter_ne _ _ _ (hg y hy)]; exact ha, hb⟩
      · exact absurd h (by simp)
  | deleteInventory id =>
    rw [applyOp, deleteInventory] at h
    split at h
    · exact absurd h (by simp)
    · next hg =>
      push_neg at hg
      obtain ⟨hgs, hgm, hgl⟩ := hg
      split at h
      · injection h with h; subst h
        refine ⟨h1, ?_, ?_, ?_, ?_, h6⟩
        · intro y hy
          exact h2 y (List.mem_of_mem_filter hy)
        · intro y hy
          rw [lookup_filter_ne _ _ _ (hgs y hy)]
          exact h3 y hy
        · intro y hy
          rw [lookup_filter_ne _ _ _ (hgm y hy)]
          exact h4 y hy
        · intro y hy
          obtain ⟨ha, hb⟩ := h5 y hy
          exact ⟨ha, by rw [lookup_filter_ne _ _ _ (hgl y hy)]; exact hb⟩
      · exact absurd h (by simp)

theorem noDangling_reachable {s : Store} (h : Reachable s) : NoDangling s := by
  induction h with
  | empty => exact noDangling_empty
  | step _ hstep ih => exact noDangling_step ih hstep

/-! ## Sibling ordering in the category tree -/

theorem mem_orderedInsertLt {b n : String} {l : List String}
    (h : b ∈ orderedInsertLt n l) : b = n ∨ b ∈ l := by
  induction l with
  | nil =>
    simp [orderedInsertLt] at h
    exact Or.inl h
  | cons m ms ih =>
    rw [orderedInsertLt] at h
    split at h
    · rcases List.mem_cons.mp h with h | h
      · exact Or.inl h
      · exact Or.inr h
    · rcases List.mem_cons.mp h with h | h
      · exact Or.inr (List.mem_cons.mpr (Or.inl h))
      · rcases ih h with h | h
        · exact Or.inl h
        · exact Or.inr (List.mem_cons.mpr (Or.inr h))

theorem sorted_orderedInsertLt (n : String) (l : List String)
    (h : l.Sorted (· ≤ ·)) : (orderedInsertLt n l).Sorted (· ≤ ·) := by
  induction l with
  | nil => simp [orderedInsertLt]
  | cons m ms ih =>
    rw [List.sorted_cons] at h
    obtain ⟨hm, hs⟩ := h
    rw [orderedInsertLt]
    split
    · next hlt =>
      rw [List.sorted_cons]
      refine ⟨?_, List.sorted_cons.mpr ⟨hm, hs⟩⟩
      intro b hb
      rcases List.mem_cons.mp hb with hb | hb
      · exact hb ▸ le_of_lt hlt
      · exact le_trans (le_of_lt hlt) (hm b hb)
    · next hge =>
      rw [List.sorted_cons]
      refine ⟨?_, ih hs⟩
      intro b hb
      rcases mem_orderedInsertLt hb with hb | hb
      · exact hb ▸ le_of_not_lt hge
      · exact hm b hb

theorem childrenNames_cons (y : Nat × CategoryRow) (ys : CatStore)
    (p : Option Nat) :
    childrenNames (y :: ys) p =
      if y.2.parent = p then y.2.name :: childrenNames ys p
      else childrenNames ys p := by
  rw [childrenNames, List.filter_cons]
  split
  · next hc =>
    rw [if_pos (by simpa using hc), List.map_cons]
    rfl
  · next hc =>
    rw [if_neg (by simpa using hc)]
    rfl

theorem childrenNames_catInsertPos_ne (s : CatStore) (k : Nat)
    (r : CategoryRow) (q : Option Nat) (hq : r.parent ≠ q) :
    childrenNames (catInsertPos r.parent r.name (k, r) s) q =
      childrenNames s q := by
  induction s with
  | nil =>
    rw [catInsertPos, childrenNames_cons, if_neg hq]
  | cons y ys ih =>
    rw [catInsertPos]
    split
    · next hc =>
      rw [childrenNames_cons, if_neg hq]
    · rw [childrenNames_cons, ih, childrenNames_cons]

theorem childrenNames_catInsertPos_self (s : CatStore) (k : Nat)
    (r : CategoryRow) :
    childrenNames (catInsertPos r.parent r.name (k, r) s) r.parent =
      orderedInsertLt r.name (childrenNames s r.parent) := by
  induction s with
  | nil =>
    rw [catInsertPos, childrenNames_cons, if_pos rfl]
    rfl
  | cons y ys ih =>
    rw [catInsertPos]
    split
    · next hc =>
      obtain ⟨hyp, hlt⟩ := hc
      rw [childrenNames_cons, if_pos rfl, childrenNames_cons, if_pos hyp,
        orderedInsertLt, if_pos hlt]
    · next hc =>
      by_cases hyp : y.2.parent = r.parent
      · have hge : ¬ r.name < y.2.name := fun hlt => hc ⟨hyp, hlt⟩
        rw [childrenNames_cons, if_pos hyp, ih, childrenNames_cons,
          if_pos hyp, orderedInsertLt, if_neg hge]
      · rw [childrenNames_cons, if_neg hyp, ih, childrenNames_cons,
          if_neg hyp]

theorem insertCategory_ok {s : CatStore} {id : Nat} {r : CategoryRow}
    {s' : CatStore} (h : insertCategory s id r = .ok s') :
    s' = catInsertPos r.parent r.name (id, r) s := by
  rcases hr : r.parent with _ | p
  · simp only [insertCategory, hr] at h
    injection h with h
    exact h.symm
  · simp only [insertCategory, hr] at h
    split at h
    · injection h with h
      exact h.symm
    · exact absurd h (by simp)

theorem runCatInserts_sorted (ops : List (Nat × CategoryRow)) (s : CatStore)
    (h : ∀ p, (childrenNames s p).Sorted (· ≤ ·)) :
    ∀ p, (childrenNames (runCatInserts ops s) p).Sorted (· ≤ ·) := by
  induction ops generalizing s with
  | nil => exact h
  | cons o rest ih =>
    obtain ⟨id, r⟩ := o
    rw [runCatInserts]
    rcases hins : insertCategory s id r with e | s'
    · exact ih s h
    · refine ih s' ?_
      intro p
      rw [insertCategory_ok hins]
      by_cases hp : r.parent = p
      · rw [← hp, childrenNames_catInsertPos_self]
        exact sorted_orderedInsertLt _ _ (h r.parent)
      · rw [childrenNames_catInsertPos_ne s id r p hp]
        exact h p

/-! ## Timestamp discipline -/

theorem stampedLE_mono {s : Store} {c c' : Nat} (hcc : c ≤ c')
    (h : StampedLE s c) : StampedLE s c' := by
  obtain ⟨h1, h2⟩ := h
  refine ⟨?_, ?_⟩ <;> intro y hy
  · exact ⟨(h1 y hy).1, le_trans (h1 y hy).2 hcc⟩
  · exact ⟨(h2 y hy).1, le_trans (h2 y hy).2 hcc⟩

theorem stampedLE_empty (c : Nat) : StampedLE Store.empty c := by
  refine ⟨?_, ?_⟩ <;> intro y hy <;> simp [Store.empty] at hy

theorem stampedLE_step {s : Store} {o : Op} {s' : Store} {c : Nat}
    (hs : StampedLE s c) (h : applyOp s o = .ok s')
    (hot : ∀ t, opTime o = some t → c ≤ t) :
    StampedLE s' (match opTime o with | none => c | some t' => t') := by
  obtain ⟨h1, h2⟩ := hs
  cases o with
  | insertProduct id w sl n d a tt =>
    have hct : c ≤ tt := hot tt rfl
    rw [applyOp, insertProduct] at h
    split at h
    · exact absurd h (by simp)
    · split at h
      · exact absurd h (by simp)
      · injection h with h
        rw [← h, opTime]
        refine ⟨?_, ?_⟩
        · intro y hy
          rcases List.mem_cons.mp hy with hy | hy
          · rw [hy]; exact ⟨le_refl _, le_refl _⟩
          · exact ⟨(h1 y hy).1, le_trans (h1 y hy).2 hct⟩
        · intro y hy
          exact ⟨(h2 y hy).1, le_trans (h2 y hy).2 hct⟩
  | insertInventory id sk up pt p b a df r st sa w tt =>
    have hct : c ≤ tt := hot tt rfl
    rw [applyOp, insertInventory] at h
    split at h
    · exact absurd h (by simp)
    · split at h
      · exact absurd h (by simp)
      · split at h
        · exact absurd h (by simp)
        · split at h
          · injection h with h
            rw [← h, opTime]
            refine ⟨?_, ?_⟩
            · intro y hy
              exact ⟨(h1 y hy).1, le_trans (h1 y hy).2 hct⟩
            · intro y hy
              rcases List.mem_cons.mp hy with hy | hy
              · rw [hy]; exact ⟨le_refl _, le_refl _⟩
              · exact ⟨(h2 y hy).1, le_trans (h2 y hy).2 hct⟩
          · exact absurd h (by simp)
          · exact absurd h (by simp)
  | insertMedia id pi im al f tt =>
    have hct : c ≤ tt := hot tt rfl
    rw [applyOp, insertMedia] at h
    split at h
    · exact absurd h (by simp)
    · split at h
      · injection h with h
        rw [← h, opTime]
        exact stampedLE_mono hct ⟨h1, h2⟩
      · exact absurd h (by simp)
  | updateProduct id u tt =>
    have hct : c ≤ tt := hot tt rfl
    rw [applyOp, updateProduct] at h
    split at h
    · split at h
      · exact absurd h (by simp)
      · injection h with h
        rw [← h, opTime]
        refine ⟨?_, ?_⟩
        · intro y hy
          rcases List.mem_map.mp hy with ⟨z, hz, hzy⟩
          by_cases hzid : z.1 = id
          · rw [if_pos hzid] at hzy
            rw [← hzy]
            exact ⟨le_trans (le_trans (h1 z hz).1 (h1 z hz).2) hct,
              le_refl _⟩
          · rw [if_neg hzid] at hzy
            rw [← hzy]
            exact ⟨(h1 z hz).1, le_trans (h1 z hz).2 hct⟩
        · intro y hy
          exact ⟨(h2 y hy).1, le_trans (h2 y hy).2 hct⟩
    · exact absurd h (by simp)
  | updateInventory id u tt =>
    have hct : c ≤ tt := hot tt rfl
    rw [applyOp, updateInventory] at h
    split at h
    · split at h
      · exact absurd h (by simp)
      · split at h
        · exact absurd h (by simp)
        · split at h
          · exact absurd h (by simp)
          · injection h with h
            rw [← h, opTime]
            refine ⟨?_, ?_⟩
            · intro y hy
              exact ⟨(h1 y hy).1, le_trans (h1 y hy).2 hct⟩
            · intro y hy
              rcases List.mem_map.mp hy with ⟨z, hz, hzy⟩
              by_cases hzid : z.1 = id
              · rw [if_pos hzid] at hzy
                rw [← hzy]
                exact ⟨le_trans (le_trans (h2 z hz).1 (h2 z hz).2) hct,
                  le_refl _⟩
              · rw [if_neg hzid] at hzy
                rw [← hzy]
                exact ⟨(h2 z hz).1, le_trans (h2 z hz).2 hct⟩
    · exact absurd h (by simp)
  | insertBrand id n =>
    rw [applyOp, insertBrand] at h
    split at h
    · exact absurd h (by simp)
    · injection h with h
      rw [← h, opTime]
      exact ⟨h1, h2⟩
  | insertProductType id n =>
    rw [applyOp, insertProductType] at h
    split at h
    · exact absurd h (by simp)
    · injection h with h
      rw [← h, opTime]
      exact ⟨h1, h2⟩
  | insertProductAttribute id n d =>
    rw [applyOp, insertProductAttribute] at h
    split at h
    · exact absurd h (by simp)
    · injection h with h
      rw [← h, opTime]
      exact ⟨h1, h2⟩
  | insertAttributeValue id pa v =>
    rw [applyOp, insertAttributeValue] at h
    split at h
    · injection h with h
      rw [← h, opTime]
      exact ⟨h1, h2⟩
    · exact absurd h (by simp)
  | insertStock id pi lc u us =>
    rw [applyOp, insertStock] at h
    split at h
    · exact absurd h (by simp)
    · split at h
      · injection h with h
        rw [← h, opTime]
        exact ⟨h1, h2⟩
      · exact absurd h (by simp)
  | insertAttributeLink id av pi =>
    rw [applyOp, insertAttributeLink] at h
    split at h
    · exact absurd h (by simp)
    · split at h
      · injection h with h
        rw [← h, opTime]
        exact ⟨h1, h2⟩
      · exact absurd h (by simp)
  | insertTypeAttributeLink id pa pt =>
    rw [applyOp, insertTypeAttributeLink] at h
    split at h
    · exact absurd h (by simp)
    · split at h
      · injection h with h
        rw [← h, opTime]
        exact ⟨h1, h2⟩
      · exact absurd h (by simp)
  | deleteProduct id =>
    rw [applyOp, deleteProduct] at h
    split at h
    · exact absurd h (by simp)
    · split at h
      · injection h with h
        rw [← h, opTime]
        refine ⟨?_, h2⟩
        intro y hy
        exact h1 y (List.mem_of_mem_filter hy)
      · exact absurd h (by simp)
  | deleteBrand id =>
    rw [applyOp, deleteBrand] at h
    split at h
    · exact absurd h (by simp)
    · split at h
      · injection h with h
        rw [← h, opTime]
        exact ⟨h1, h2⟩
      · exact absurd h (by simp)
  | deleteProductType id =>
    rw [applyOp, deleteProductType] at h
    split at h
    · exact absurd h (by simp)
    · split at h
      · injection h with h
        rw [← h, opTime]
        exact ⟨h1, h2⟩
      · exact absurd h (by simp)
  | deleteProductAttribute id =>
    rw [applyOp, deleteProductAttribute] at h
    split at h
    · exact absurd h (by simp)
    · split at h
      · injection h with h
        rw [← h, opTime]
        exact ⟨h1, h2⟩
      · exact absurd h (by simp)
  | deleteAttributeValue id =>
    rw [applyOp, deleteAttributeValue] at h
    split at h
    · exact absurd h (by simp)
    · split at h
      · injection h with h
        rw [← h, opTime]
        exact ⟨h1, h2⟩
      · exact absurd h (by simp)
  | deleteInventory id =>
    rw [applyOp, deleteInventory] at h
    split at h
    · exact absurd h (by simp)
    · split at h
      · injection h with h
        rw [← h, opTime]
        refine ⟨h1, ?_⟩
        intro y hy
        exact h2 y (List.mem_of_mem_filter hy)
      · exact absurd h (by simp)

theorem runOps_stampedLE (ops : List Op) (s : Store) (c : Nat)
    (hs : StampedLE s c) (hm : timesMono c ops) :
    ∃ c', StampedLE (runOps s ops) c' := by
  induction ops generalizing s c with
  | nil => exact ⟨c, hs⟩
  | cons o rest ih =>
    rw [runOps]
    rw [timesMono] at hm
    rcases hot : opTime o with _ | t
    · rw [hot] at hm
      rcases hop : applyOp s o with e | s'
      · exact ih s c hs hm
      · have hstep := stampedLE_step hs hop (fun t' ht' => by
          rw [hot] at ht'; exact absurd ht' (by simp))
        rw [hot] at hstep
        exact ih s' c hstep hm
    · rw [hot] at hm
      obtain ⟨hct, hm⟩ := hm
      rcases hop : applyOp s o with e | s'
      · exact ih s t (stampedLE_mono hct hs) hm
      · have hstep := stampedLE_step hs hop (fun t' ht' => by
          rw [hot] at ht'; injection ht' with ht'; rw [← ht']; exact hct)
        rw [hot] at hstep
        exact ih s' t hstep hm

theorem timesOk_of_stampedLE {s : Store} {c : Nat} (h : StampedLE s c) :
    TimesOk s :=
  ⟨fun y hy => (h.1 y hy).1, fun y hy => (h.2 y hy).1⟩

/-! ## Resolution and reachability helper lemmas -/

theorem resolveBool_some (f : BooleanField) (b : Bool) :
    resolveBool f (some b) = .ok b := rfl

theorem resolveBool_default_ok (f : BooleanField) (o : Option Bool)
    (d : Bool) (h : f.default = some d) :
    resolveBool f o = .ok (o.getD d) := by
  cases o <;> simp [resolveBool, h]

theorem reachable_runOps (s : Store) (ops : List Op) (h : Reachable s) :
    Reachable (runOps s ops) := by
  induction ops generalizing s with
  | nil => exact h
  | cons o rest ih =>
    rw [runOps]
    rcases hop : applyOp s o with e | s'
    · exact ih s h
    · exact ih s' (Reachable.step h hop)

/-! ## Claims -/

/-- C1: the spec claims every price outside [0.00, 999.99] fails validation
with a RangeError before persistence, and in particular that
retail_price = -1.00 fails.  The declared check (`max_digits=5,
decimal_places=2`) does reject 1000.00 and more than two fractional
digits, and does accept 999.99 — but it counts digits only and declares
no minimum value, so -1.00 passes validation and the insert succeeds,
against the claim and the field's own error-message text ("the price must
be between 0 and 999.99"). -/
theorem negative_price_accepted :
    priceValid ⟨100000, 2⟩ = false ∧
    priceValid ⟨99999, 2⟩ = true ∧
    priceValid ⟨1, 3⟩ = false ∧
    priceValid ⟨-100, 2⟩ = true ∧
    exceptOk (insertInventory invStore 20 "SKU-3" "123456789014" 1 2 3
      none none ⟨-100, 2⟩ ⟨100, 2⟩ ⟨100, 2⟩ 1 5) = true := by
  refine ⟨by decide, by decide, by decide, by decide, by decide⟩

/-- C2: deleting a category that has at least one child fails with
`ReferentialIntegrityError` (the error result is the aborted transaction:
the tree is unchanged), while deleting a stored category with no children
succeeds and removes exactly that row. -/
theorem category_delete_protect (s : CatStore) (id : Nat) :
    ((∃ y ∈ s, y.2.parent = some id) →
       deleteCategory s id = .error .ReferentialIntegrityError) ∧
    ((∀ y ∈ s, y.2.parent ≠ some id) → (s.lookup id).isSome = true →
       deleteCategory s id = .ok (s.filter (fun y => y.1 ≠ id))) := by
  constructor
  · intro h
    rw [deleteCategory, if_pos h]
  · intro h hin
    have hne : ¬ ∃ y ∈ s, y.2.parent = some id := by
      rintro ⟨y, hy, hc⟩
      exact h y hy hc
    rw [deleteCategory, if_neg hne, if_pos hin]

/-- Witness for C2 on the spec §8 scenario: "Electronics" with child
"Laptops" cannot be deleted; the leaf "Laptops" can. -/
theorem category_delete_protect_witness :
    deleteCategory catDemo 1 = .error .ReferentialIntegrityError ∧
    deleteCategory catDemo 2 = .ok (catDemo.filter (fun y => y.1 ≠ 2)) :=
  ⟨(category_delete_protect catDemo 1).1 (by decide),
   (category_delete_protect catDemo 2).2 (by decide) (by decide)⟩

/-- C8: after any sequence of category insertions into the initially empty
tree — whatever the insertion order — the children of every node are in
ascending order by name. -/
theorem sibling_names_sorted (ops : List (Nat × CategoryRow))
    (p : Option Nat) :
    (childrenNames (runCatInserts ops []) p).Sorted (· ≤ ·) :=
  runCatInserts_sorted ops [] (fun _ => List.sorted_nil) p

/-- C9: `Media.is_feature` declares no default — despite its own help text
saying "format: default=false" — so creating a media row without supplying
it fails, unlike every other boolean flag of the schema, each of which
declares a default. -/
theorem media_is_feature_no_default :
    mediaIsFeatureField.default = none ∧
    mediaIsFeatureField.help_text =
      some "format: default=false, true=default image" ∧
    (∀ s id pi im al t,
       insertMedia s id pi im al none t = .error .NotNullViolation) ∧
    categoryIsActiveField.default = some true ∧
    productIsActiveField.default = some false ∧
    inventoryIsActiveField.default = some false ∧
    inventoryIsDefaultField.default = some false :=
  ⟨rfl, rfl, fun _ _ _ _ _ _ => rfl, rfl, rfl, rfl, rfl⟩

/-- C10: a product or variant created without explicitly supplying its
flags is stored inactive (and non-default), while a category's
`is_active` resolves to `true`: the declared defaults and the resolved
creation values. -/
theorem boolean_creation_defaults :
    resolveBool productIsActiveField none = .ok false ∧
    resolveBool inventoryIsActiveField none = .ok false ∧
    resolveBool inventoryIsDefaultField none = .ok false ∧
    resolveBool categoryIsActiveField none = .ok true ∧
    (∀ s id w sl n d t s',
       insertProduct s id w sl n d none t = .ok s' →
       ∃ row, s'.products.lookup id = some row ∧ row.is_active = false) ∧
    (∀ s id sku upc pt p b r st sa wt t s',
       insertInventory s id sku upc pt p b none none r st sa wt t =
         .ok s' →
       ∃ row, s'.inventories.lookup id = some row ∧
         row.is_active = false ∧ row.is_default = false) := by
  refine ⟨rfl, rfl, rfl, rfl, ?_, ?_⟩
  · intro s id w sl n d t s' h
    rw [insertProduct] at h
    split at h
    · exact absurd h (by simp)
    · injection h with h
      have hp : s'.products = (id, ⟨w, sl, n, d, false, t, t⟩) :: s.products := by
        rw [← h]
      exact ⟨_, by rw [hp]; exact lookup_self_cons _ _ _, rfl⟩
  · intro s id sku upc pt p b r st sa wt t s' h
    rw [insertInventory] at h
    split at h
    · exact absurd h (by simp)
    · split at h
      · exact absurd h (by simp)
      · split at h
        · exact absurd h (by simp)
        · injection h with h
          have hp : s'.inventories =
              (id, ⟨sku, upc, pt, p, b, false, false, r, st, sa, wt, t, t⟩)
                :: s.inventories := by
            rw [← h]
          exact ⟨_, by rw [hp]; exact lookup_self_cons _ _ _, rfl, rfl⟩

/-- Witness for C10: creating a product without supplying `is_active`
stores it inactive. -/
theorem boolean_creation_defaults_witness :
    ∃ row, prodStore.products.lookup 1 = some row ∧ row.is_active = false :=
  boolean_creation_defaults.2.2.2.2.1 Store.empty 1 "w9" "prod" "Prod"
    "A product" 7 prodStore rfl

/-- C3: a variant whose `sku` or `upc` equals a stored variant's fails with
`UniquenessViolation` (the error result is the aborted transaction, nothing
changes), while a variant with fresh `sku` and `upc` — prices valid and
references present — is stored exactly as written. -/
theorem sku_upc_uniqueness (s : Store) (id : Nat) (sku upc : String)
    (pt p b : Nat) (ia idf : Option Bool) (r st sa : DecimalInput)
    (w : Int) (t : Nat)
    (hval : (priceValid r && priceValid st && priceValid sa) = true) :
    ((∃ y ∈ s.inventories, y.2.sku = sku ∨ y.2.upc = upc) →
       insertInventory s id sku upc pt p b ia idf r st sa w t =
         .error .UniquenessViolation) ∧
    ((∀ y ∈ s.inventories, y.2.sku ≠ sku ∧ y.2.upc ≠ upc) →
       (s.productTypes.lookup pt).isSome = true →
       (s.products.lookup p).isSome = true →
       (s.brands.lookup b).isSome = true →
       insertInventory s id sku upc pt p b ia idf r st sa w t =
         .ok { s with inventories :=
                 (id, ⟨sku, upc, pt, p, b, ia.getD false, idf.getD false,
                       r, st, sa, w, t, t⟩) :: s.inventories }) := by
  have hv : ¬ ¬ (priceValid r && priceValid st && priceValid sa) = true :=
    fun hg => hg hval
  constructor
  · intro h
    rw [insertInventory, if_neg hv, if_pos h]
  · intro h hpt hp hb
    have hne : ¬ ∃ y ∈ s.inventories, y.2.sku = sku ∨ y.2.upc = upc := by
      rintro ⟨y, hy, hc | hc⟩
      · exact (h y hy).1 hc
      · exact (h y hy).2 hc
    rw [insertInventory, if_neg hv, if_neg hne,
      if_neg (fun hg => hg ⟨hpt, hp, hb⟩),
      resolveBool_default_ok inventoryIsActiveField ia false rfl,
      resolveBool_default_ok inventoryIsDefaultField idf false rfl]

/-- Witness for C3 on the populated store: re-using "SKU-1" is rejected,
fresh identifiers are accepted. -/
theorem sku_upc_uniqueness_witness :
    insertInventory invStore 21 "SKU-1" "999999999999" 1 2 3 none none
      ⟨100, 2⟩ ⟨100, 2⟩ ⟨100, 2⟩ 1 5 = .error .UniquenessViolation ∧
    insertInventory invStore 21 "SKU-4" "123456789015" 1 2 3 none none
      ⟨100, 2⟩ ⟨100, 2⟩ ⟨100, 2⟩ 1 5 =
      .ok { invStore with inventories :=
              (21, ⟨"SKU-4", "123456789015", 1, 2, 3, false, false,
                    ⟨100, 2⟩, ⟨100, 2⟩, ⟨100, 2⟩, 1, 5, 5⟩)
                :: invStore.inventories } :=
  ⟨(sku_upc_uniqueness invStore 21 "SKU-1" "999999999999" 1 2 3 none none
      ⟨100, 2⟩ ⟨100, 2⟩ ⟨100, 2⟩ 1 5 (by decide)).1 (by decide),
   (sku_upc_uniqueness invStore 21 "SKU-4" "123456789015" 1 2 3 none none
      ⟨100, 2⟩ ⟨100, 2⟩ ⟨100, 2⟩ 1 5 (by decide)).2 (by decide) (by decide)
      (by decide) (by decide)⟩

/-- C4: in each of the two link tables, re-inserting an already stored
pair fails with `UniquenessViolation`, while a pair not yet present —
even one sharing a single component with a stored pair — is accepted. -/
theorem link_pair_uniqueness (s : Store) (id av pi pa pt : Nat) :
    ((∃ y ∈ s.attributeLinks,
        y.2.attribute_values = av ∧ y.2.product_inventory = pi) →
       insertAttributeLink s id av pi = .error .UniquenessViolation) ∧
    ((∀ y ∈ s.attributeLinks,
        ¬(y.2.attribute_values = av ∧ y.2.product_inventory = pi)) →
       (s.attributeValues.lookup av).isSome = true →
       (s.inventories.lookup pi).isSome = true →
       insertAttributeLink s id av pi =
         .ok { s with attributeLinks :=
                 (id, ⟨av, pi⟩) :: s.attributeLinks }) ∧
    ((∃ y ∈ s.typeAttributeLinks,
        y.2.product_attribute = pa ∧ y.2.product_type = pt) →
       insertTypeAttributeLink s id pa pt = .error .UniquenessViolation) ∧
    ((∀ y ∈ s.typeAttributeLinks,
        ¬(y.2.product_attribute = pa ∧ y.2.product_type = pt)) →
       (s.productAttributes.lookup pa).isSome = true →
       (s.productTypes.lookup pt).isSome = true →
       insertTypeAttributeLink s id pa pt =
         .ok { s with typeAttributeLinks :=
                 (id, ⟨pa, pt⟩) :: s.typeAttributeLinks }) := by
  refine ⟨?_, ?_, ?_, ?_⟩
  · intro h
    rw [insertAttributeLink, if_pos h]
  · intro h hav hpi
    have hne : ¬ ∃ y ∈ s.attributeLinks,
        y.2.attribute_values = av ∧ y.2.product_inventory = pi := by
      rintro ⟨y, hy, hc⟩
      exact h y hy hc
    rw [insertAttributeLink, if_neg hne, if_pos ⟨hav, hpi⟩]
  · intro h
    rw [insertTypeAttributeLink, if_pos h]
  · intro h hpa hpt
    have hne : ¬ ∃ y ∈ s.typeAttributeLinks,
        y.2.product_attribute = pa ∧ y.2.product_type = pt := by
      rintro ⟨y, hy, hc⟩
      exact h y hy hc
    rw [insertTypeAttributeLink, if_neg hne, if_pos ⟨hpa, hpt⟩]

/-- Witness for C4: the stored pair (value 7, variant 4) is rejected on
re-insert; (7, 9) — sharing only the value — is accepted; likewise for
the type-attribute table with pair (6, 1) stored and (13, 1) fresh. -/
theorem link_pair_uniqueness_witness :
    insertAttributeLink invStore 22 7 4 = .error .UniquenessViolation ∧
    insertAttributeLink invStore 22 7 9 =
      .ok { invStore with attributeLinks :=
              (22, ⟨7, 9⟩) :: invStore.attributeLinks } ∧
    insertTypeAttributeLink invStore 22 6 1 = .error .UniquenessViolation ∧
    insertTypeAttributeLink invStore 22 13 1 =
      .ok { invStore with typeAttributeLinks :=
              (22, ⟨13, 1⟩) :: invStore.typeAttributeLinks } :=
  ⟨(link_pair_uniqueness invStore 22 7 4 6 1).1 (by decide),
   (link_pair_uniqueness invStore 22 7 9 6 1).2.1 (by decide) (by decide)
     (by decide),
   (link_pair_uniqueness invStore 22 7 4 6 1).2.2.1 (by decide),
   (link_pair_uniqueness invStore 22 7 4 13 1).2.2.2 (by decide) (by decide)
     (by decide)⟩

/-- C6: a variant insert whose product type, product or brand reference
does not resolve fails with `ReferenceNotFoundError` (the error result is
the aborted transaction, the store unchanged); with all three present —
prices valid, identifiers fresh — it succeeds. -/
theorem variant_requires_references (s : Store) (id : Nat)
    (sku upc : String) (pt p b : Nat) (ia idf : Option Bool)
    (r st sa : DecimalInput) (w : Int) (t : Nat)
    (hval : (priceValid r && priceValid st && priceValid sa) = true)
    (hfresh : ∀ y ∈ s.inventories, y.2.sku ≠ sku ∧ y.2.upc ≠ upc) :
    (¬((s.productTypes.lookup pt).isSome = true ∧
       (s.products.lookup p).isSome = true ∧
       (s.brands.lookup b).isSome = true) →
       insertInventory s id sku upc pt p b ia idf r st sa w t =
         .error .ReferenceNotFoundError) ∧
    (((s.productTypes.lookup pt).isSome = true ∧
      (s.products.lookup p).isSome = true ∧
      (s.brands.lookup b).isSome = true) →
       insertInventory s id sku upc pt p b ia idf r st sa w t =
         .ok { s with inventories :=
                 (id, ⟨sku, upc, pt, p, b, ia.getD false, idf.getD false,
                       r, st, sa, w, t, t⟩) :: s.inventories }) := by
  have hv : ¬ ¬ (priceValid r && priceValid st && priceValid sa) = true :=
    fun hg => hg hval
  have hne : ¬ ∃ y ∈ s.inventories, y.2.sku = sku ∨ y.2.upc = upc := by
    rintro ⟨y, hy, hc | hc⟩
    · exact (hfresh y hy).1 hc
    · exact (hfresh y hy).2 hc
  constructor
  · intro h
    rw [insertInventory, if_neg hv, if_neg hne, if_pos h]
  · intro h
    rw [insertInventory, if_neg hv, if_neg hne, if_neg (fun hg => hg h),
      resolveBool_default_ok inventoryIsActiveField ia false rfl,
      resolveBool_default_ok inventoryIsDefaultField idf false rfl]

/-- Witness for C6: referencing the missing brand 99 is rejected; with
the stored references 1, 2, 3 the insert succeeds. -/
theorem variant_requires_references_witness :
    insertInventory invStore 23 "SKU-5" "123456789016" 1 2 99 none none
      ⟨100, 2⟩ ⟨100, 2⟩ ⟨100, 2⟩ 1 5 = .error .ReferenceNotFoundError ∧
    insertInventory invStore 23 "SKU-5" "123456789016" 1 2 3 none none
      ⟨100, 2⟩ ⟨100, 2⟩ ⟨100, 2⟩ 1 5 =
      .ok { invStore with inventories :=
              (23, ⟨"SKU-5", "123456789016", 1, 2, 3, false, false,
                    ⟨100, 2⟩, ⟨100, 2⟩, ⟨100, 2⟩, 1, 5, 5⟩)
                :: invStore.inventories } :=
  ⟨(variant_requires_references invStore 23 "SKU-5" "123456789016" 1 2 99
      none none ⟨100, 2⟩ ⟨100, 2⟩ ⟨100, 2⟩ 1 5 (by decide) (by decide)).1
      (by decide),
   (variant_requires_references invStore 23 "SKU-5" "123456789016" 1 2 3
      none none ⟨100, 2⟩ ⟨100, 2⟩ ⟨100, 2⟩ 1 5 (by decide) (by decide)).2
      (by decide)⟩

/-- C5: in every reachable store state no row dangles — every foreign key
of every stored row resolves to a stored row — and deleting any row still
referenced by another row fails with `ReferentialIntegrityError` without
cascading (the error result is the aborted transaction: nothing is
removed). -/
theorem referential_integrity (s : Store) (h : Reachable s) :
    NoDangling s ∧
    (∀ id, (∃ y ∈ s.inventories, y.2.product = id) →
       deleteProduct s id = .error .ReferentialIntegrityError) ∧
    (∀ id, (∃ y ∈ s.inventories, y.2.brand = id) →
       deleteBrand s id = .error .ReferentialIntegrityError) ∧
    (∀ id, ((∃ y ∈ s.inventories, y.2.product_type = id) ∨
            (∃ y ∈ s.typeAttributeLinks, y.2.product_type = id)) →
       deleteProductType s id = .error .ReferentialIntegrityError) ∧
    (∀ id, ((∃ y ∈ s.attributeValues, y.2.product_attribute = id) ∨
            (∃ y ∈ s.typeAttributeLinks, y.2.product_attribute = id)) →
       deleteProductAttribute s id = .error .ReferentialIntegrityError) ∧
    (∀ id, (∃ y ∈ s.attributeLinks, y.2.attribute_values = id) →
       deleteAttributeValue s id = .error .ReferentialIntegrityError) ∧
    (∀ id, ((∃ y ∈ s.stocks, y.2.product_inventory = id) ∨
            (∃ y ∈ s.medias, y.2.product_inventory = id) ∨
            (∃ y ∈ s.attributeLinks, y.2.product_inventory = id)) →
       deleteInventory s id = .error .ReferentialIntegrityError) := by
  refine ⟨noDangling_reachable h, ?_, ?_, ?_, ?_, ?_, ?_⟩ <;> intro id hr
  · rw [deleteProduct, if_pos hr]
  · rw [deleteBrand, if_pos hr]
  · rw [deleteProductType, if_pos hr]
  · rw [deleteProductAttribute, if_pos hr]
  · rw [deleteAttributeValue, if_pos hr]
  · rw [deleteInventory, if_pos hr]

/-- Witness for C5 on the populated store: no reference dangles, and every
referenced row refuses deletion. -/
theorem referential_integrity_witness :
    NoDangling invStore ∧
    deleteProduct invStore 2 = .error .ReferentialIntegrityError ∧
    deleteBrand invStore 3 = .error .ReferentialIntegrityError ∧
    deleteProductType invStore 1 = .error .ReferentialIntegrityError ∧
    deleteProductAttribute invStore 6 = .error .ReferentialIntegrityError ∧
    deleteAttributeValue invStore 7 = .error .ReferentialIntegrityError ∧
    deleteInventory invStore 4 = .error .ReferentialIntegrityError := by
  have h := referential_integrity invStore
    (reachable_runOps Store.empty _ Reachable.empty)
  exact ⟨h.1, h.2.1 2 (by decide), h.2.2.1 3 (by decide),
    h.2.2.2.1 1 (Or.inl (by decide)), h.2.2.2.2.1 6 (Or.inl (by decide)),
    h.2.2.2.2.2.1 7 (by decide), h.2.2.2.2.2.2 4 (Or.inl (by decide))⟩

/-- C7: `created_at` is written exactly once at insertion (both stamps
equal the insertion time, and reading the fresh row back returns the
written values); every update keeps `created_at` and restamps
`updated_at` with the save time; and over any operation sequence under a
non-decreasing clock, `created_at ≤ updated_at` holds on every stored
product and variant row. -/
theorem timestamps_consistent :
    (∀ s id sku upc pt p b (ia idf : Bool) r st sa w t s',
       insertInventory s id sku upc pt p b (some ia) (some idf)
         r st sa w t = .ok s' →
       s'.inventories.lookup id =
         some ⟨sku, upc, pt, p, b, ia, idf, r, st, sa, w, t, t⟩) ∧
    (∀ s id (u : InventoryUpdate) t s' row,
       updateInventory s id u t = .ok s' →
       s.inventories.lookup id = some row →
       s'.inventories.lookup id =
         some ⟨u.sku, u.upc, u.product_type, u.product, u.brand,
               u.is_active, u.is_default, u.retail_price, u.store_price,
               u.sale_price, u.weight, row.created_at, t⟩) ∧
    (∀ s id w sl n d (ia : Bool) t s',
       insertProduct s id w sl n d (some ia) t = .ok s' →
       s'.products.lookup id = some ⟨w, sl, n, d, ia, t, t⟩) ∧
    (∀ s id (u : ProductUpdate) t s' row,
       updateProduct s id u t = .ok s' →
       s.products.lookup id = some row →
       s'.products.lookup id =
         some ⟨u.web_id, u.slug, u.name, u.description, u.is_active,
               row.created_at, t⟩) ∧
    (∀ ops, timesMono 0 ops → TimesOk (runOps Store.empty ops)) := by
  refine ⟨?_, ?_, ?_, ?_, ?_⟩
  · intro s id sku upc pt p b ia idf r st sa w t s' h
    rw [insertInventory] at h
    split at h
    · exact absurd h (by simp)
    · split at h
      · exact absurd h (by simp)
      · split at h
        · exact absurd h (by simp)
        · injection h with h
          have hp : s'.inventories =
              (id, ⟨sku, upc, pt, p, b, ia, idf, r, st, sa, w, t, t⟩)
                :: s.inventories := by
            rw [← h]
          rw [hp]
          exact lookup_self_cons _ _ _
  · intro s id u t s' row h hrow
    rw [updateInventory] at h
    split at h
    · split at h
      · exact absurd h (by simp)
      · split at h
        · exact absurd h (by simp)
        · split at h
          · exact absurd h (by simp)
          · injection h with h
            have hp : s'.inventories = updateById s.inventories id
                (fun r' => ⟨u.sku, u.upc, u.product_type, u.product,
                  u.brand, u.is_active, u.is_default, u.retail_price,
                  u.store_price, u.sale_price, u.weight,
                  r'.created_at, t⟩) := by
              rw [← h]
            rw [hp, lookup_updateById_self, hrow]
            rfl
    · exact absurd h (by simp)
  · intro s id w sl n d ia t s' h
    rw [insertProduct] at h
    split at h
    · exact absurd h (by simp)
    · injection h with h
      have hp : s'.products = (id, ⟨w, sl, n, d, ia, t, t⟩) :: s.products := by
        rw [← h]
      rw [hp]
      exact lookup_self_cons _ _ _
  · intro s id u t s' row h hrow
    rw [updateProduct] at h
    split at h
    · split at h
      · exact absurd h (by simp)
      · injection h with h
        have hp : s'.products = updateById s.products id
            (fun r' => ⟨u.web_id, u.slug, u.name, u.description,
              u.is_active, r'.created_at, t⟩) := by
          rw [← h]
        rw [hp, lookup_updateById_self, hrow]
        rfl
    · exact absurd h (by simp)
  · intro ops hm
    obtain ⟨c', hc⟩ := runOps_stampedLE ops Store.empty 0 (stampedLE_empty 0) hm
    exact timesOk_of_stampedLE hc

/-- Witness for C7: the fresh variant reads back exactly as written with
both stamps at the insertion time; updating variant 4 keeps its creation
stamp 1 and restamps `updated_at` to 9; and the populated store satisfies
`created_at ≤ updated_at` throughout. -/
theorem timestamps_consistent_witness :
    invStore2.inventories.lookup 24 =
      some ⟨"SKU-6", "123456789017", 1, 2, 3, true, false,
            ⟨100, 2⟩, ⟨100, 2⟩, ⟨100, 2⟩, 1, 5, 5⟩ ∧
    invStore3.inventories.lookup 4 =
      some ⟨"SKU-1", "123456789012", 1, 2, 3, true, true,
            ⟨20000, 2⟩, ⟨20000, 2⟩, ⟨20000, 2⟩, 3, 1, 9⟩ ∧
    TimesOk invStore :=
  ⟨timestamps_consistent.1 invStore 24 "SKU-6" "123456789017" 1 2 3 true
     false ⟨100, 2⟩ ⟨100, 2⟩ ⟨100, 2⟩ 1 5 invStore2 rfl,
   timestamps_consistent.2.1 invStore 4 demoUpdate 9 invStore3
     ⟨"SKU-1", "123456789012", 1, 2, 3, false, false,
      ⟨49999, 2⟩, ⟨39999, 2⟩, ⟨29999, 2⟩, 2, 1, 1⟩ rfl (by decide),
   timestamps_consistent.2.2.2.2 invStoreOps
     (by simp [invStoreOps, timesMono, opTime])⟩

end ECommerce
